import Mathlib

/-!
Shallow embedding of the Launchbox image scraper (`src/main.py`) and proofs
about its download engine: filename sanitization, path construction, the
file-existence cache, the retrying HTTP session, per-task execution
(`download_image`), the worker loop (`worker_task`), and the pool-level
progress accounting.

Python strings `Optional[str]` become `Option String`; an XML element's
optional child with optional text becomes `Option (Option String)`
(outer layer: is the child element present; inner layer: its text).
The filesystem and network are modelled explicitly: a `World` carries the
directories and files that exist, the existence cache, and a count of
network requests issued; a `TaskEnv` fixes, for one task, the sequence of
outcomes the network would produce and whether the two filesystem
operations (directory creation, file write) would raise `OSError`.
-/

namespace Scraper

/-- The character class of the regex `r'[<>:"/\\|?*]'` in `sanitize_filename`. -/
def isInvalidChar (c : Char) : Bool :=
  c = '<' || c = '>' || c = ':' || c = '"' || c = '/' || c = '\\' || c = '|' || c = '?' || c = '*'

/-- The strip set of `sanitized.strip('. ')`. -/
def isStripChar (c : Char) : Bool :=
  c = '.' || c = ' '

/-- One character under `re.sub(r'[<>:"/\\|?*]', '_', ·)`. -/
def subChar (c : Char) : Char :=
  if isInvalidChar c then '_' else c

/-- Python `str.strip('. ')`: drop the characters of the strip set from both ends. -/
def stripChars (l : List Char) : List Char :=
  List.rdropWhile isStripChar (List.dropWhile isStripChar l)

/-- `sanitize_filename` from `src/main.py`: `None ↦ "Unknown"`, otherwise
replace the invalid characters by `'_'`, strip `'.'` and `' '` from both
ends, and fall back to `"Unknown"` when the result is empty. -/
def sanitize_filename : Option String → String
  | none => "Unknown"
  | some s =>
    let stripped := stripChars (s.data.map subChar)
    if stripped.isEmpty then "Unknown" else String.mk stripped

/-- A `<GameImage>` element as `download_image` and the queue builder read it:
each field is an optional child element carrying optional text. -/
structure ImageElem where
  region : Option (Option String)
  fileName : Option (Option String)
  imageType : Option (Option String)
  databaseID : Option (Option String)
deriving DecidableEq

/-- The `game_info` dictionary handed to `download_image`. -/
structure GameInfo where
  platform : String
  name : String
deriving DecidableEq

/-- `safe_find_text`: take the child's text when the child is present
(else the default), then sanitize. -/
def safe_find_text (field : Option (Option String)) (dflt : String) : String :=
  match field with
  | none => sanitize_filename (some dflt)
  | some t => sanitize_filename t

/-- `os.path.join` over a non-empty segment list. -/
def pathJoin (segs : List String) : String :=
  String.intercalate "/" segs

/-- The paths `os.makedirs` creates on the way to `pathJoin segs`:
the join of every non-empty leading run of segments. -/
def ancestorPaths (segs : List String) : List String :=
  (List.range segs.length).map (fun i => pathJoin (List.take (i + 1) segs))

/-- UTF-8 bytes of a character, as naturals. -/
def utf8Bytes (c : Char) : List Nat :=
  let n := c.toNat
  if n < 0x80 then [n]
  else if n < 0x800 then [0xC0 + n / 0x40, 0x80 + n % 0x40]
  else if n < 0x10000 then [0xE0 + n / 0x1000, 0x80 + (n / 0x40) % 0x40, 0x80 + n % 0x40]
  else [0xF0 + n / 0x40000, 0x80 + (n / 0x1000) % 0x40, 0x80 + (n / 0x40) % 0x40, 0x80 + n % 0x40]

/-- One hexadecimal digit, upper case. -/
def hexDigit (n : Nat) : Char :=
  if n < 10 then Char.ofNat (48 + n) else Char.ofNat (55 + n)

/-- Bytes `urllib.parse.quote` leaves as-is with the default `safe='/'`:
ASCII alphanumerics, `_ . - ~` and `/`. -/
def isSafeByte (b : Nat) : Bool :=
  (65 ≤ b && b ≤ 90) || (97 ≤ b && b ≤ 122) || (48 ≤ b && b ≤ 57) ||
    b = 95 || b = 46 || b = 45 || b = 126 || b = 47

/-- `urllib.parse.quote`: percent-encode every unsafe UTF-8 byte. -/
def quote (s : String) : String :=
  String.mk <| (s.data.flatMap utf8Bytes).flatMap fun b =>
    if isSafeByte b then [Char.ofNat b] else ['%', hexDigit (b / 16), hexDigit (b % 16)]

/-- The mutable world a task execution threads through: the filesystem
(directories and files with contents), the shared existence cache, and a
counter of HTTP requests put on the wire. -/
structure World where
  dirs : List String
  files : List (String × List Nat)
  cache : List (String × Bool)
  requests : Nat
deriving DecidableEq

/-- Association-list lookup backing the cache dictionary. -/
def lookupCache : List (String × Bool) → String → Option Bool
  | [], _ => none
  | (k, v) :: t, p => if k = p then some v else lookupCache t p

/-- `os.path.exists`: true for an existing directory or file. -/
def osPathExists (w : World) (p : String) : Bool :=
  w.dirs.contains p || w.files.any (fun kv => kv.1 = p)

/-- `FileExistenceCache.file_exists`: on a miss, stat the filesystem once and
memoize the boolean; on a hit, answer from the cache with no I/O. -/
def file_exists (w : World) (p : String) : Bool × World :=
  match lookupCache w.cache p with
  | some b => (b, w)
  | none => (osPathExists w p, { w with cache := (p, osPathExists w p) :: w.cache })

/-- `os.makedirs(path, exist_ok=True)`: add the directory and its ancestors,
keeping whatever already exists. -/
def makedirs (segs : List String) (dirs : List String) : List String :=
  dirs ++ (ancestorPaths segs).filter (fun d => !(dirs.contains d))

/-- The session configuration built by `create_session_with_retries`. -/
structure Session where
  total : Nat
  read : Nat
  connect : Nat
  backoff_factor : ℚ
  status_forcelist : List Nat
deriving DecidableEq

/-- `create_session_with_retries(retries, backoff_factor, status_forcelist)`. -/
def create_session_with_retries (retries : Nat) (bf : ℚ) (fl : List Nat) : Session :=
  { total := retries, read := retries, connect := retries,
    backoff_factor := bf, status_forcelist := fl }

/-- Default `backoff_factor=0.3` of `create_session_with_retries`. -/
def defaultBackoffFactor : ℚ := 3 / 10

/-- Default `status_forcelist=(500, 502, 504)` of `create_session_with_retries`. -/
def defaultStatusForcelist : List Nat := [500, 502, 504]

/-- The call `create_session_with_retries(retries=max_retries)` in
`process_game_images`: only the retry count is passed, the rest defaults. -/
def sessionForRun (max_retries : Nat) : Session :=
  create_session_with_retries max_retries defaultBackoffFactor defaultStatusForcelist

/-- Modelled from the spec: the exponential backoff delays of the retry
policy, "exponential backoff starting at a small fixed base delay". -/
def backoffDelay (factor : ℚ) (k : Nat) : ℚ :=
  factor * 2 ^ k

/-- One outcome the network produces for one request put on the wire. -/
inductive Attempt where
  | connError
  | readError
  | response (status : Nat) (contentType : Option String) (body : List Nat)
deriving DecidableEq

/-- Whether the retry policy retries after this outcome: connection
failures, read failures, and the statuses of the forcelist. -/
def isRetryable (forcelist : List Nat) : Attempt → Bool
  | .connError => true
  | .readError => true
  | .response s _ _ => forcelist.contains s

/-- What `session.get` finally yields: a response, or a transport-level
exception once retries are exhausted. -/
inductive SessionResult where
  | resp (status : Nat) (contentType : Option String) (body : List Nat)
  | exhausted
deriving DecidableEq

/-- Modelled from the spec: the transport-level retry loop of the session
built by `create_session_with_retries` (the `urllib3` `Retry` the adapter
mounts; its code is outside this repository). At most `remaining` attempts
are made; a retryable outcome (connection failure, read failure, status in
the forcelist) consumes one attempt and goes again; any other response is
returned as-is. Returns the final result and the number of requests issued. -/
def sessionGet (forcelist : List Nat) : Nat → List Attempt → SessionResult × Nat
  | 0, _ => (.exhausted, 0)
  | _ + 1, [] => (.exhausted, 0)
  | r + 1, a :: rest =>
    if isRetryable forcelist a then
      let (res, n) := sessionGet forcelist r rest
      (res, n + 1)
    else
      match a with
      | .response s ct body => (.resp s ct body, 1)
      | _ => (.exhausted, 1)

/-- The extension chosen from `Content-Type` in `download_image`:
default `.jpg`, overridden to `.png` then `.gif` on substring match. -/
def extFor (content_type : String) : String :=
  if ("png".data).IsInfix content_type.data then ".png"
  else if ("gif".data).IsInfix content_type.data then ".gif"
  else ".jpg"

/-- The three result strings `download_image` can return, by constructor:
`Skipped (already exists): path`, `Downloaded: path`,
`Failed to download after retries: url. Error: ...`. -/
inductive TaskResult where
  | skipped (path : String)
  | downloaded (path : String)
  | failed (url : String)
deriving DecidableEq

/-- An `OSError` escaping `download_image` (neither `os.makedirs` nor the
file write sits under a handler that catches it). -/
inductive OSErr where
  | mkdirErr
  | writeErr
deriving DecidableEq

/-- The environment of one task execution: the outcomes the network would
produce for its requests, and whether its two filesystem operations raise. -/
structure TaskEnv where
  attempts : List Attempt
  mkdirFails : Bool
  writeFails : Bool
deriving DecidableEq

/-- Base URL of the remote asset source. -/
def baseUrl : String := "https://images.launchbox-app.com/"

/-- The directory segments `os.path.join(output_dir, platform, game_name, region)`. -/
def taskFolderSegs (image : ImageElem) (gi : GameInfo) (outDir : String) : List String :=
  [outDir, gi.platform, gi.name, safe_find_text image.region "Unknown"]

/-- The extension-less destination stem `os.path.join(folder_path, image_type)`. -/
def taskStem (image : ImageElem) (gi : GameInfo) (outDir : String) : String :=
  pathJoin [pathJoin (taskFolderSegs image gi outDir), safe_find_text image.imageType "Unknown"]

/-- The request URL `https://images.launchbox-app.com/{quote(file_name)}`. -/
def taskUrl (image : ImageElem) : String :=
  baseUrl ++ quote (safe_find_text image.fileName "Unknown")

/-- `download_image` from `src/main.py`. Ordering is the source's: build the
folder path, `os.makedirs` it (outside the `try`, so a failure raises), form
the extension-less stem, consult the existence cache (skip on a hit with no
request), otherwise `session.get` through the retry policy,
`raise_for_status`, choose the extension from `Content-Type`, write the body
(a raised `OSError` is not caught: only `RequestException` is), and record
the final path in the cache. -/
def download_image (image : ImageElem) (gi : GameInfo) (outDir : String)
    (session : Session) (env : TaskEnv) (w : World) : Except OSErr TaskResult × World :=
  if env.mkdirFails then (.error .mkdirErr, w)
  else
    let w1 : World := { w with dirs := makedirs (taskFolderSegs image gi outDir) w.dirs }
    let url := taskUrl image
    let stem := taskStem image gi outDir
    let hit := file_exists w1 stem
    if hit.1 then (.ok (.skipped stem), hit.2)
    else
      let got := sessionGet session.status_forcelist session.total env.attempts
      let w2 : World := { hit.2 with requests := hit.2.requests + got.2 }
      match got.1 with
      | .exhausted => (.ok (.failed url), w2)
      | .resp status ct body =>
        if 400 ≤ status then (.ok (.failed url), w2)
        else
          let fullPath := stem ++ extFor (ct.getD "")
          if env.writeFails then (.error .writeErr, w2)
          else
            (.ok (.downloaded fullPath),
              { w2 with
                files := (fullPath, body) :: w2.files.filter (fun kv => kv.1 ≠ fullPath),
                cache := (fullPath, true) :: w2.cache })

/-- One queued work item: a `(image, game_info)` pair from the deque. -/
abbrev QTask := ImageElem × GameInfo

/-- `worker_task` from `src/main.py`, for one worker: repeatedly pop the
head of the queue and run `download_image`, appending each returned result
and incrementing the completion counter under the lock; stop normally when
the queue is empty. An `OSError` escaping `download_image` is not caught
(the worker's `try` catches only `IndexError`), so it aborts the loop:
the fields of the outcome are the results collected, the world, the
completion counter, the escaped exception if any, and the queue left behind. -/
def worker_task (envOf : QTask → TaskEnv) (outDir : String) (session : Session) :
    List QTask → World → Nat →
    (List TaskResult × World × Nat × Option OSErr × List QTask)
  | [], w, c => ([], w, c, none, [])
  | t :: rest, w, c =>
    match download_image t.1 t.2 outDir session (envOf t) w with
    | (.ok r, w') =>
      let out := worker_task envOf outDir session rest w' (c + 1)
      (r :: out.1, out.2)
    | (.error e, w') => ([], w', c, some e, rest)

/-- Shared state of the worker pool: the remaining deque, the world, and
the `progress['completed']` counter. -/
structure PoolState where
  queue : List QTask
  world : World
  completed : Nat
deriving DecidableEq

/-- One pool step at task granularity: some worker pops the head task, runs
it, and — when the execution completes with a result — increments the
completion counter under the lock. The deque pop and the locked increment
are atomic in the source, so any thread interleaving of the pool is a
sequence of these steps. -/
def poolStep (envOf : QTask → TaskEnv) (outDir : String) (session : Session)
    (s : PoolState) : PoolState :=
  match s.queue with
  | [] => s
  | t :: rest =>
    match download_image t.1 t.2 outDir session (envOf t) s.world with
    | (.ok _, w') => { queue := rest, world := w', completed := s.completed + 1 }
    | (.error _, w') => { queue := rest, world := w', completed := s.completed }

/-- Run `n` pool steps. -/
def poolRun (envOf : QTask → TaskEnv) (outDir : String) (session : Session) :
    Nat → PoolState → PoolState
  | 0, s => s
  | n + 1, s => poolRun envOf outDir session n (poolStep envOf outDir session s)

/-- The `Game` records `select_games` builds (name, database id, platform). -/
structure Game where
  name : String
  database_id : String
  platform : String
deriving DecidableEq

/-- The queue construction of `process_game_images`: for each selected game,
every `<GameImage>` whose `DatabaseID` text equals the game's id is paired
with `{'platform': game['platform'], 'name': sanitize_filename(game['name'])}`. -/
def build_queue (gameImages : List ImageElem) (games : List Game) : List QTask :=
  games.flatMap fun g =>
    (gameImages.filter fun img => img.databaseID = some (some g.database_id)).map
      fun image => ((image, { platform := g.platform, name := sanitize_filename (some g.name) }) : QTask)

deriving instance DecidableEq for Except

/-- The world as it stands right after the `os.makedirs` call of a task. -/
def postMkdirWorld (image : ImageElem) (gi : GameInfo) (outDir : String) (w : World) : World :=
  { w with dirs := makedirs (taskFolderSegs image gi outDir) w.dirs }

/-- The existence-cache query a task makes: the answer and the world after it. -/
def cacheHit (image : ImageElem) (gi : GameInfo) (outDir : String) (w : World) : Bool × World :=
  file_exists (postMkdirWorld image gi outDir w) (taskStem image gi outDir)

/-! ### Concrete fixtures for witnesses and counterexamples -/

/-- A concrete `<GameImage>`: region `r`, file name `f`, type `t`, id `42`. -/
def imgA : ImageElem := ⟨some (some "r"), some (some "f"), some (some "t"), some (some "42")⟩

/-- A concrete `game_info`: platform `P`, name `N`. -/
def giA : GameInfo := ⟨"P", "N"⟩

/-- The empty world: nothing on disk, empty cache, no requests yet. -/
def wEmpty : World := ⟨[], [], [], 0⟩

/-- Environment: one `200` response with a JPEG content type, no filesystem failures. -/
def envOk200 : TaskEnv := ⟨[.response 200 (some "image/jpeg") [1, 2, 3]], false, false⟩

/-- Environment: `502`, `502`, then `200` with a PNG content type. -/
def env502 : TaskEnv := ⟨[.response 502 none [], .response 502 none [],
  .response 200 (some "image/png") [9]], false, false⟩

/-- Environment: every attempt answers `500`. -/
def env500 : TaskEnv := ⟨[.response 500 none [], .response 500 none [],
  .response 500 none []], false, false⟩

/-- Environment: a single `404` response. -/
def env404 : TaskEnv := ⟨[.response 404 none []], false, false⟩

/-- Environment: the network succeeds but the file write raises `OSError`. -/
def envWriteFail : TaskEnv := ⟨[.response 200 (some "image/jpeg") [1]], false, true⟩

/-- A second concrete `<GameImage>` (id `43`), used as a follow-up queue entry. -/
def imgB : ImageElem := ⟨some (some "r2"), some (some "g"), some (some "u"), some (some "43")⟩

/-- The world left by downloading `imgA`/`giA` into `out` against `envOk200`. -/
def wAfterFirstRun : World :=
  (download_image imgA giA "out" (sessionForRun 3) envOk200 wEmpty).2

/-- A game whose platform label contains a path separator. -/
def gSlash : Game := ⟨"N", "42", "A/B"⟩

/-- An environment map giving every queued task `envOk200`. -/
def envAllOk : QTask → TaskEnv := fun _ => envOk200

/-- The empty-after-stripping predicate used to state the `"Unknown"`
fallback cases of `sanitize_filename`. -/
def stripsToEmpty (s : String) : Bool :=
  (stripChars (s.data.map subChar)).isEmpty

/-- A world whose cache already holds the stem of `imgA`/`giA` under `out`. -/
def wCached : World := ⟨[], [], [("out/P/N/r/t", true)], 0⟩

/-- A game with a plain platform label. -/
def gP : Game := ⟨"N", "42", "P"⟩

/-- The world after the write of `imgA`'s task fails under `envWriteFail`. -/
def wWriteFailed : World :=
  (download_image imgA giA "out" (sessionForRun 3) envWriteFail wEmpty).2

/-- An environment map failing every write. -/
def envAllWriteFail : QTask → TaskEnv := fun _ => envWriteFail

/-! ### Helper lemmas on sanitization -/

theorem isInvalidChar_subChar (c : Char) : isInvalidChar (subChar c) = false := by
  unfold subChar
  by_cases h : isInvalidChar c = true
  · simp only [h, if_pos]; decide
  · rw [if_neg h]
    simpa using h

theorem mem_stripChars {c : Char} {l : List Char} (h : c ∈ stripChars l) : c ∈ l := by
  unfold stripChars at h
  have hpre := List.rdropWhile_prefix isStripChar (List.dropWhile isStripChar l)
  have h1 : c ∈ List.dropWhile isStripChar l := hpre.sublist.subset h
  exact (List.dropWhile_sublist isStripChar).subset h1

theorem head?_dropWhile_false {p : Char → Bool} {c : Char} :
    ∀ {l : List Char}, (List.dropWhile p l).head? = some c → p c = false := by
  intro l
  induction l with
  | nil => intro h; simp [List.dropWhile] at h
  | cons a t ih =>
    intro h
    rw [List.dropWhile_cons] at h
    by_cases ha : p a = true
    · exact ih (by simpa [ha] using h)
    · rw [if_neg (by simpa using ha)] at h
      simp at h
      rw [h] at ha
      simpa using ha

theorem head?_stripChars_false {c : Char} {l : List Char}
    (h : (stripChars l).head? = some c) : isStripChar c = false := by
  unfold stripChars at h
  have hpre := List.rdropWhile_prefix isStripChar (List.dropWhile isStripChar l)
  obtain ⟨t, ht⟩ := hpre
  have h2 : (List.dropWhile isStripChar l).head? = some c := by
    rw [← ht, List.head?_append, h]
    rfl
  exact head?_dropWhile_false h2

theorem getLast?_stripChars_false {c : Char} {l : List Char}
    (h : (stripChars l).getLast? = some c) : isStripChar c = false := by
  unfold stripChars at h
  set m := List.dropWhile isStripChar l with hm
  have hne : List.rdropWhile isStripChar m ≠ [] := by
    intro hnil
    rw [hnil] at h
    simp at h
  have hlast := List.rdropWhile_last_not isStripChar m hne
  rw [List.getLast?_eq_getLast _ hne] at h
  have : c = (List.rdropWhile isStripChar m).getLast hne := by
    exact (Option.some.injEq _ _).mp h.symm
  rw [this]
  simpa using hlast

theorem sanitize_ne_empty (x : Option String) : sanitize_filename x ≠ "" := by
  match x with
  | none => decide
  | some s =>
    unfold sanitize_filename
    by_cases h : (stripChars (s.data.map subChar)).isEmpty = true
    · simp only [h, if_pos]; decide
    · simp only [h]
      rw [if_neg (by simp)]
      intro hcontra
      have : (stripChars (s.data.map subChar)) = ([] : List Char) := by
        have := congrArg String.data hcontra
        simpa using this
      rw [this] at h
      simp at h

theorem sanitize_all_valid (x : Option String) :
    (sanitize_filename x).data.all (fun c => !(isInvalidChar c)) = true := by
  match x with
  | none => decide
  | some s =>
    unfold sanitize_filename
    by_cases h : (stripChars (s.data.map subChar)).isEmpty = true
    · simp only [h, if_pos]; decide
    · simp only [h]
      rw [if_neg (by simp)]
      rw [List.all_eq_true]
      intro c hc
      have hc2 : c ∈ s.data.map subChar := mem_stripChars hc
      obtain ⟨a, _, ha2⟩ := List.mem_map.mp hc2
      rw [← ha2]
      simp [isInvalidChar_subChar]

theorem sanitize_head_ok (x : Option String) :
    (sanitize_filename x).data.head?.all (fun c => !(isStripChar c)) = true := by
  match x with
  | none => decide
  | some s =>
    unfold sanitize_filename
    by_cases h : (stripChars (s.data.map subChar)).isEmpty = true
    · simp only [h, if_pos]; decide
    · simp only [h]
      rw [if_neg (by simp)]
      cases hh : (stripChars (s.data.map subChar)).head? with
      | none => simp [hh]
      | some c =>
        have := head?_stripChars_false hh
        simp [hh, this]

theorem sanitize_last_ok (x : Option String) :
    (sanitize_filename x).data.getLast?.all (fun c => !(isStripChar c)) = true := by
  match x with
  | none => decide
  | some s =>
    unfold sanitize_filename
    by_cases h : (stripChars (s.data.map subChar)).isEmpty = true
    · simp only [h, if_pos]; decide
    · simp only [h]
      rw [if_neg (by simp)]
      cases hh : (stripChars (s.data.map subChar)).getLast? with
      | none => simp [hh]
      | some c =>
        have := getLast?_stripChars_false hh
        simp [hh, this]

theorem map_subChar_id {l : List Char} (h : ∀ c ∈ l, isInvalidChar c = false) :
    l.map subChar = l := by
  induction l with
  | nil => rfl
  | cons a t ih =>
    have ha := h a (List.mem_cons_self a t)
    have : subChar a = a := by unfold subChar; rw [if_neg (by simp [ha])]
    simp only [List.map_cons, this, List.cons.injEq, true_and]
    exact ih (fun c hc => h c (List.mem_cons_of_mem a hc))

theorem dropWhile_eq_self_of_head {p : Char → Bool} {l : List Char}
    (h : l.head?.all (fun c => !(p c)) = true) : List.dropWhile p l = l := by
  cases l with
  | nil => rfl
  | cons a t =>
    simp only [List.head?_cons, Option.all_some] at h
    rw [List.dropWhile_cons, if_neg (by simpa using h)]

theorem rdropWhile_eq_self_of_getLast {p : Char → Bool} {l : List Char}
    (h : l.getLast?.all (fun c => !(p c)) = true) : List.rdropWhile p l = l := by
  rw [List.rdropWhile_eq_self_iff]
  intro hl
  rw [List.getLast?_eq_getLast l hl, Option.all_some] at h
  simpa using h

theorem string_data_ne_nil {y : String} (h : y ≠ "") : y.data ≠ [] := by
  intro hd
  exact h (String.ext (by rw [hd]))

theorem sanitize_fixpoint (x : Option String) :
    sanitize_filename (some (sanitize_filename x)) = sanitize_filename x := by
  have hall := sanitize_all_valid x
  have hhead := sanitize_head_ok x
  have hlast := sanitize_last_ok x
  have hne := sanitize_ne_empty x
  set y := sanitize_filename x with hy
  have hmap : y.data.map subChar = y.data :=
    map_subChar_id (fun c hc => by
      rw [List.all_eq_true] at hall
      simpa using hall c hc)
  have hstrip : stripChars y.data = y.data := by
    unfold stripChars
    rw [dropWhile_eq_self_of_head hhead]
    exact rdropWhile_eq_self_of_getLast hlast
  have hdata : y.data ≠ [] := string_data_ne_nil hne
  show (if (stripChars (y.data.map subChar)).isEmpty then "Unknown"
        else String.mk (stripChars (y.data.map subChar))) = y
  rw [hmap, hstrip, if_neg (by simpa using hdata)]

/-- C8: `sanitize_filename` is total and always yields a usable path
segment: for every input the result is non-empty, contains none of the
characters `< > : " / \ | ? *`, and neither starts nor ends with `'.'` or
`' '`; the input `None`, and any string whose substituted form strips to
empty, both map to `"Unknown"`. -/
theorem sanitize_filename_total_usable :
    (∀ x : Option String,
        sanitize_filename x ≠ "" ∧
        (sanitize_filename x).data.all (fun c => !(isInvalidChar c)) = true ∧
        (sanitize_filename x).data.head?.all (fun c => !(isStripChar c)) = true ∧
        (sanitize_filename x).data.getLast?.all (fun c => !(isStripChar c)) = true) ∧
    sanitize_filename none = "Unknown" ∧
    (∀ s : String, stripsToEmpty s = true → sanitize_filename (some s) = "Unknown") := by
  refine ⟨fun x => ⟨sanitize_ne_empty x, sanitize_all_valid x, sanitize_head_ok x,
    sanitize_last_ok x⟩, rfl, ?_⟩
  intro s h
  show (if (stripChars (s.data.map subChar)).isEmpty then "Unknown"
        else String.mk (stripChars (s.data.map subChar))) = "Unknown"
  rw [if_pos (by simpa [stripsToEmpty] using h)]

/-- Witness for C8: the inner implication discharged at `" .. "`,
which strips to empty and sanitizes to `"Unknown"`. -/
theorem sanitize_filename_total_usable_witness :
    stripsToEmpty " .. " = true ∧ sanitize_filename (some " .. ") = "Unknown" :=
  ⟨by decide, sanitize_filename_total_usable.2.2 " .. " (by decide)⟩

/-! ### Structural lemmas about download_image -/

theorem file_exists_frame (w : World) (p : String) :
    (file_exists w p).2.requests = w.requests ∧ (file_exists w p).2.dirs = w.dirs ∧
    (file_exists w p).2.files = w.files := by
  cases h : lookupCache w.cache p <;> simp [file_exists, h]

theorem download_image_cachehit (image : ImageElem) (gi : GameInfo) (outDir : String)
    (session : Session) (env : TaskEnv) (w : World)
    (hm : env.mkdirFails = false)
    (hhit : (cacheHit image gi outDir w).1 = true) :
    download_image image gi outDir session env w =
      (.ok (.skipped (taskStem image gi outDir)), (cacheHit image gi outDir w).2) := by
  unfold download_image
  simp only [hm, Bool.false_eq_true, if_false]
  have : file_exists { w with dirs := makedirs (taskFolderSegs image gi outDir) w.dirs }
      (taskStem image gi outDir) = cacheHit image gi outDir w := rfl
  rw [this, if_pos hhit]

theorem download_image_mkdirfail (image : ImageElem) (gi : GameInfo) (outDir : String)
    (session : Session) (env : TaskEnv) (w : World)
    (hm : env.mkdirFails = true) :
    download_image image gi outDir session env w = (.error .mkdirErr, w) := by
  unfold download_image
  rw [if_pos hm]

theorem download_image_exhausted (image : ImageElem) (gi : GameInfo) (outDir : String)
    (session : Session) (env : TaskEnv) (w : World) (n : Nat)
    (hm : env.mkdirFails = false)
    (hmiss : (cacheHit image gi outDir w).1 = false)
    (hE : sessionGet session.status_forcelist session.total env.attempts = (.exhausted, n)) :
    download_image image gi outDir session env w =
      (.ok (.failed (taskUrl image)),
       { (cacheHit image gi outDir w).2 with
         requests := (cacheHit image gi outDir w).2.requests + n }) := by
  unfold download_image
  simp only [hm, Bool.false_eq_true, if_false]
  have hfe : file_exists { w with dirs := makedirs (taskFolderSegs image gi outDir) w.dirs }
      (taskStem image gi outDir) = cacheHit image gi outDir w := rfl
  rw [hfe, if_neg (by simp [hmiss]), hE]

theorem download_image_httpfail (image : ImageElem) (gi : GameInfo) (outDir : String)
    (session : Session) (env : TaskEnv) (w : World) (n status : Nat)
    (ct : Option String) (body : List Nat)
    (hm : env.mkdirFails = false)
    (hmiss : (cacheHit image gi outDir w).1 = false)
    (hE : sessionGet session.status_forcelist session.total env.attempts
            = (.resp status ct body, n))
    (hs : 400 ≤ status) :
    download_image image gi outDir session env w =
      (.ok (.failed (taskUrl image)),
       { (cacheHit image gi outDir w).2 with
         requests := (cacheHit image gi outDir w).2.requests + n }) := by
  unfold download_image
  simp only [hm, Bool.false_eq_true, if_false]
  have hfe : file_exists { w with dirs := makedirs (taskFolderSegs image gi outDir) w.dirs }
      (taskStem image gi outDir) = cacheHit image gi outDir w := rfl
  rw [hfe, if_neg (by simp [hmiss]), hE]
  show (if 400 ≤ status then _ else _) = _
  rw [if_pos hs]

theorem download_image_success (image : ImageElem) (gi : GameInfo) (outDir : String)
    (session : Session) (env : TaskEnv) (w : World) (n status : Nat)
    (ct : Option String) (body : List Nat)
    (hm : env.mkdirFails = false)
    (hw : env.writeFails = false)
    (hmiss : (cacheHit image gi outDir w).1 = false)
    (hE : sessionGet session.status_forcelist session.total env.attempts
            = (.resp status ct body, n))
    (hs : ¬ 400 ≤ status) :
    download_image image gi outDir session env w =
      (.ok (.downloaded (taskStem image gi outDir ++ extFor (ct.getD ""))),
       { dirs := (cacheHit image gi outDir w).2.dirs,
         files := (taskStem image gi outDir ++ extFor (ct.getD ""), body) ::
           (cacheHit image gi outDir w).2.files.filter
             (fun kv => kv.1 ≠ taskStem image gi outDir ++ extFor (ct.getD "")),
         cache := (taskStem image gi outDir ++ extFor (ct.getD ""), true) ::
           (cacheHit image gi outDir w).2.cache,
         requests := (cacheHit image gi outDir w).2.requests + n }) := by
  unfold download_image
  simp only [hm, Bool.false_eq_true, if_false]
  have hfe : file_exists { w with dirs := makedirs (taskFolderSegs image gi outDir) w.dirs }
      (taskStem image gi outDir) = cacheHit image gi outDir w := rfl
  rw [hfe, if_neg (by simp [hmiss]), hE]
  show (if 400 ≤ status then _ else _) = _
  rw [if_neg hs]
  show (if env.writeFails then _ else _) = _
  rw [hw]
  simp only [Bool.false_eq_true, if_false]

theorem download_image_writefail (image : ImageElem) (gi : GameInfo) (outDir : String)
    (session : Session) (env : TaskEnv) (w : World) (n status : Nat)
    (ct : Option String) (body : List Nat)
    (hm : env.mkdirFails = false)
    (hw : env.writeFails = true)
    (hmiss : (cacheHit image gi outDir w).1 = false)
    (hE : sessionGet session.status_forcelist session.total env.attempts
            = (.resp status ct body, n))
    (hs : ¬ 400 ≤ status) :
    download_image image gi outDir session env w =
      (.error .writeErr,
       { (cacheHit image gi outDir w).2 with
         requests := (cacheHit image gi outDir w).2.requests + n }) := by
  unfold download_image
  simp only [hm, Bool.false_eq_true, if_false]
  have hfe : file_exists { w with dirs := makedirs (taskFolderSegs image gi outDir) w.dirs }
      (taskStem image gi outDir) = cacheHit image gi outDir w := rfl
  rw [hfe, if_neg (by simp [hmiss]), hE]
  show (if 400 ≤ status then _ else _) = _
  rw [if_neg hs]
  show (if env.writeFails then _ else _) = _
  rw [hw]
  simp only [if_true]

theorem mem_makedirs_iff (segs : List String) (dirs : List String) (d : String) :
    d ∈ makedirs segs dirs ↔ (d ∈ dirs ∨ d ∈ ancestorPaths segs) := by
  simp only [makedirs, List.mem_append, List.mem_filter]
  by_cases hd : d ∈ dirs
  · simp [hd]
  · simp only [hd, false_or]
    constructor
    · rintro ⟨hap, _⟩; exact hap
    · intro hap
      refine ⟨hap, ?_⟩
      simp [List.elem_iff, hd]

theorem sessionGet_count_le (fl : List Nat) :
    ∀ (n : Nat) (attempts : List Attempt), (sessionGet fl n attempts).2 ≤ n := by
  intro n
  induction n with
  | zero => intro attempts; simp [sessionGet]
  | succ m ih =>
    intro attempts
    cases attempts with
    | nil => simp [sessionGet]
    | cons a rest =>
      by_cases h : isRetryable fl a = true
      · show (sessionGet fl (m + 1) (a :: rest)).2 ≤ m + 1
        simp only [sessionGet, h, if_true]
        show (sessionGet fl m rest).2 + 1 ≤ m + 1
        have := ih rest
        omega
      · simp only [sessionGet, h, if_false]
        cases a with
        | connError => simp [isRetryable] at h
        | readError => simp [isRetryable] at h
        | response s ct b => simp

theorem download_image_ok (image : ImageElem) (gi : GameInfo) (outDir : String)
    (session : Session) (env : TaskEnv) (w : World)
    (hm : env.mkdirFails = false) (hw : env.writeFails = false) :
    ∃ r w', download_image image gi outDir session env w = (.ok r, w') := by
  by_cases hhit : (cacheHit image gi outDir w).1 = true
  · exact ⟨_, _, download_image_cachehit image gi outDir session env w hm hhit⟩
  · have hmiss : (cacheHit image gi outDir w).1 = false := by simpa using hhit
    rcases hE : sessionGet session.status_forcelist session.total env.attempts with ⟨res, n⟩
    cases res with
    | exhausted =>
      exact ⟨_, _, download_image_exhausted image gi outDir session env w n hm hmiss hE⟩
    | resp status ct body =>
      by_cases hs : 400 ≤ status
      · exact ⟨_, _, download_image_httpfail image gi outDir session env w n status ct body
          hm hmiss hE hs⟩
      · exact ⟨_, _, download_image_success image gi outDir session env w n status ct body
          hm hw hmiss hE hs⟩

theorem download_image_dirs (image : ImageElem) (gi : GameInfo) (outDir : String)
    (session : Session) (env : TaskEnv) (w : World) (hm : env.mkdirFails = false) :
    (download_image image gi outDir session env w).2.dirs =
      makedirs (taskFolderSegs image gi outDir) w.dirs := by
  have hch : (cacheHit image gi outDir w).2.dirs
      = makedirs (taskFolderSegs image gi outDir) w.dirs :=
    (file_exists_frame (postMkdirWorld image gi outDir w) (taskStem image gi outDir)).2.1
  by_cases hhit : (cacheHit image gi outDir w).1 = true
  · rw [download_image_cachehit image gi outDir session env w hm hhit]
    exact hch
  · have hmiss : (cacheHit image gi outDir w).1 = false := by simpa using hhit
    rcases hE : sessionGet session.status_forcelist session.total env.attempts with ⟨res, n⟩
    cases res with
    | exhausted =>
      rw [download_image_exhausted image gi outDir session env w n hm hmiss hE]
      exact hch
    | resp status ct body =>
      by_cases hs : 400 ≤ status
      · rw [download_image_httpfail image gi outDir session env w n status ct body
          hm hmiss hE hs]
        exact hch
      · by_cases hwf : env.writeFails = true
        · rw [download_image_writefail image gi outDir session env w n status ct body
            hm hwf hmiss hE hs]
          exact hch
        · rw [download_image_success image gi outDir session env w n status ct body
            hm (by simpa using hwf) hmiss hE hs]
          exact hch

theorem cacheHit_requests (image : ImageElem) (gi : GameInfo) (outDir : String) (w : World) :
    (cacheHit image gi outDir w).2.requests = w.requests :=
  (file_exists_frame (postMkdirWorld image gi outDir w) (taskStem image gi outDir)).1

theorem cacheHit_files (image : ImageElem) (gi : GameInfo) (outDir : String) (w : World) :
    (cacheHit image gi outDir w).2.files = w.files :=
  (file_exists_frame (postMkdirWorld image gi outDir w) (taskStem image gi outDir)).2.2

/-! ### Claim theorems: skipping, frame, extension selection -/

theorem folder_mem_ancestorPaths (image : ImageElem) (gi : GameInfo) (outDir : String) :
    pathJoin (taskFolderSegs image gi outDir) ∈ ancestorPaths (taskFolderSegs image gi outDir) := by
  unfold taskFolderSegs ancestorPaths
  refine List.mem_map.mpr ⟨3, ?_, rfl⟩
  show (3 : Nat) ∈ List.range 4
  decide

/-- C2: a task whose extension-less destination stem the existence cache
reports as present is skipped, and no network request is issued for it. -/
theorem cache_hit_skipped_no_network (image : ImageElem) (gi : GameInfo) (outDir : String)
    (session : Session) (env : TaskEnv) (w : World)
    (hm : env.mkdirFails = false)
    (hhit : (cacheHit image gi outDir w).1 = true) :
    (download_image image gi outDir session env w).1
        = .ok (.skipped (taskStem image gi outDir)) ∧
    (download_image image gi outDir session env w).2.requests = w.requests := by
  rw [download_image_cachehit image gi outDir session env w hm hhit]
  exact ⟨rfl, cacheHit_requests image gi outDir w⟩

/-- Witness for C2 at a concrete cached task. -/
theorem cache_hit_skipped_no_network_witness :
    envOk200.mkdirFails = false ∧ (cacheHit imgA giA "out" wCached).1 = true ∧
    ((download_image imgA giA "out" (sessionForRun 3) envOk200 wCached).1
        = .ok (.skipped (taskStem imgA giA "out")) ∧
     (download_image imgA giA "out" (sessionForRun 3) envOk200 wCached).2.requests
        = wCached.requests) :=
  ⟨rfl, by decide,
    cache_hit_skipped_no_network imgA giA "out" (sessionForRun 3) envOk200 wCached rfl (by decide)⟩

/-- C10: the destination directory is created before the cache check, so any
task (skipped ones included) leaves it existing; a skipped task changes no
files, issues no requests, and adds no directories beyond the destination
chain. -/
theorem skipped_task_filesystem_frame (image : ImageElem) (gi : GameInfo) (outDir : String)
    (session : Session) (env : TaskEnv) (w : World)
    (hm : env.mkdirFails = false) :
    pathJoin (taskFolderSegs image gi outDir)
        ∈ (download_image image gi outDir session env w).2.dirs ∧
    ((cacheHit image gi outDir w).1 = true →
      (download_image image gi outDir session env w).1
          = .ok (.skipped (taskStem image gi outDir)) ∧
      (download_image image gi outDir session env w).2.files = w.files ∧
      (download_image image gi outDir session env w).2.requests = w.requests ∧
      (∀ d, d ∈ (download_image image gi outDir session env w).2.dirs ↔
        (d ∈ w.dirs ∨ d ∈ ancestorPaths (taskFolderSegs image gi outDir)))) := by
  constructor
  · rw [download_image_dirs image gi outDir session env w hm, mem_makedirs_iff]
    exact Or.inr (folder_mem_ancestorPaths image gi outDir)
  · intro hhit
    rw [download_image_cachehit image gi outDir session env w hm hhit]
    refine ⟨rfl, cacheHit_files image gi outDir w, cacheHit_requests image gi outDir w, ?_⟩
    intro d
    have hd : (cacheHit image gi outDir w).2.dirs
        = makedirs (taskFolderSegs image gi outDir) w.dirs :=
      (file_exists_frame (postMkdirWorld image gi outDir w) (taskStem image gi outDir)).2.1
    rw [hd, mem_makedirs_iff]

/-- Witness for C10 at a concrete cached task. -/
theorem skipped_task_filesystem_frame_witness :
    envOk200.mkdirFails = false ∧ (cacheHit imgA giA "out" wCached).1 = true ∧
    pathJoin (taskFolderSegs imgA giA "out")
        ∈ (download_image imgA giA "out" (sessionForRun 3) envOk200 wCached).2.dirs ∧
    (download_image imgA giA "out" (sessionForRun 3) envOk200 wCached).2.files
        = wCached.files :=
  ⟨rfl, by decide,
    (skipped_task_filesystem_frame imgA giA "out" (sessionForRun 3) envOk200 wCached rfl).1,
    ((skipped_task_filesystem_frame imgA giA "out" (sessionForRun 3) envOk200 wCached rfl).2
      (by decide)).2.1⟩

/-- C9: the `png` branch is tested before the `gif` branch, so a content
type containing both substrings gets `.png`. -/
theorem png_precedence_over_gif (ct : String)
    (hp : ("png".data).IsInfix ct.data) (hg : ("gif".data).IsInfix ct.data) :
    extFor ct = ".png" := by
  unfold extFor
  rw [if_pos hp]

/-- Witness for C9 at a content type containing both substrings. -/
theorem png_precedence_over_gif_witness :
    ("png".data).IsInfix ("a/pnggif".data) ∧ ("gif".data).IsInfix ("a/pnggif".data) ∧
    extFor "a/pnggif" = ".png" :=
  ⟨by decide, by decide, png_precedence_over_gif "a/pnggif" (by decide) (by decide)⟩

/-- C5: the persisted extension is a function of the declared content type:
`.png` on a `png` substring, else `.gif` on a `gif` substring, else `.jpg`
(also for an absent header, read as the empty string); on a successful
response `download_image` appends exactly that extension to the stem. -/
theorem extension_from_content_type :
    (∀ ct : String,
       (("png".data).IsInfix ct.data → extFor ct = ".png") ∧
       (¬ ("png".data).IsInfix ct.data → ("gif".data).IsInfix ct.data → extFor ct = ".gif") ∧
       (¬ ("png".data).IsInfix ct.data → ¬ ("gif".data).IsInfix ct.data → extFor ct = ".jpg")) ∧
    extFor "" = ".jpg" ∧
    (∀ (image : ImageElem) (gi : GameInfo) (outDir : String) (session : Session)
       (env : TaskEnv) (w : World) (n status : Nat) (ct : Option String) (body : List Nat),
       env.mkdirFails = false → env.writeFails = false →
       (cacheHit image gi outDir w).1 = false →
       sessionGet session.status_forcelist session.total env.attempts
           = (.resp status ct body, n) →
       ¬ 400 ≤ status →
       (download_image image gi outDir session env w).1
           = .ok (.downloaded (taskStem image gi outDir ++ extFor (ct.getD "")))) := by
  refine ⟨?_, by decide, ?_⟩
  · intro ct
    refine ⟨fun hp => ?_, fun hp hg => ?_, fun hp hg => ?_⟩
    · unfold extFor; rw [if_pos hp]
    · unfold extFor; rw [if_neg hp, if_pos hg]
    · unfold extFor; rw [if_neg hp, if_neg hg]
  · intro image gi outDir session env w n status ct body hm hw hmiss hE hs
    rw [download_image_success image gi outDir session env w n status ct body hm hw hmiss hE hs]

/-- Witness for C5: a `200` response with a JPEG content type gets `.jpg`. -/
theorem extension_from_content_type_witness :
    envOk200.mkdirFails = false ∧ envOk200.writeFails = false ∧
    (cacheHit imgA giA "out" wEmpty).1 = false ∧
    sessionGet (sessionForRun 3).status_forcelist (sessionForRun 3).total envOk200.attempts
        = (.resp 200 (some "image/jpeg") [1, 2, 3], 1) ∧
    ¬ 400 ≤ 200 ∧
    (download_image imgA giA "out" (sessionForRun 3) envOk200 wEmpty).1
        = .ok (.downloaded (taskStem imgA giA "out" ++ extFor ((some "image/jpeg").getD ""))) :=
  ⟨rfl, rfl, by decide, by decide, by decide,
    extension_from_content_type.2.2 imgA giA "out" (sessionForRun 3) envOk200 wEmpty
      1 200 (some "image/jpeg") [1, 2, 3] rfl rfl (by decide) (by decide) (by decide)⟩

/-! ### Claim theorems: retry policy and progress accounting -/

/-- C4: the session is configured with 3 retries over forcelist
{500, 502, 504}; retry fires exactly on connection failures, read failures
and forcelist statuses; at most 3 attempts go on the wire; backoff grows
exponentially; 502,502,200 ends downloaded after 3 requests; three 500s end
failed after 3 requests; a first-attempt 404 ends failed after 1 request. -/
theorem fetch_retry_policy :
    (∀ (r : Nat) (bf : ℚ) (fl : List Nat), create_session_with_retries r bf fl
        = { total := r, read := r, connect := r, backoff_factor := bf,
            status_forcelist := fl }) ∧
    sessionForRun 3 = (⟨3, 3, 3, 3 / 10, [500, 502, 504]⟩ : Session) ∧
    (∀ a : Attempt, isRetryable defaultStatusForcelist a = true ↔
       (a = .connError ∨ a = .readError ∨
        ∃ s ct body, a = .response s ct body ∧ (s = 500 ∨ s = 502 ∨ s = 504))) ∧
    (∀ attempts, (sessionGet defaultStatusForcelist 3 attempts).2 ≤ 3) ∧
    (∀ (bf : ℚ) (k : Nat), backoffDelay bf (k + 1) = 2 * backoffDelay bf k) ∧
    (∀ (image : ImageElem) (gi : GameInfo) (outDir : String) (w : World),
       (cacheHit image gi outDir w).1 = false →
       ((download_image image gi outDir (sessionForRun 3) env502 w).1
           = .ok (.downloaded (taskStem image gi outDir ++ ".png")) ∧
        (download_image image gi outDir (sessionForRun 3) env502 w).2.requests
           = w.requests + 3) ∧
       ((download_image image gi outDir (sessionForRun 3) env500 w).1
           = .ok (.failed (taskUrl image)) ∧
        (download_image image gi outDir (sessionForRun 3) env500 w).2.requests
           = w.requests + 3) ∧
       ((download_image image gi outDir (sessionForRun 3) env404 w).1
           = .ok (.failed (taskUrl image)) ∧
        (download_image image gi outDir (sessionForRun 3) env404 w).2.requests
           = w.requests + 1)) := by
  refine ⟨fun r bf fl => rfl, rfl, ?_, sessionGet_count_le defaultStatusForcelist 3, ?_, ?_⟩
  · intro a
    cases a with
    | connError => simp [isRetryable]
    | readError => simp [isRetryable]
    | response s ct b =>
      simp [isRetryable, defaultStatusForcelist, List.elem_iff]
  · intro bf k
    unfold backoffDelay
    ring
  · intro image gi outDir w hmiss
    have he502 := download_image_success image gi outDir (sessionForRun 3) env502 w 3 200
      (some "image/png") [9] rfl rfl hmiss (by decide) (by decide)
    have he500 := download_image_exhausted image gi outDir (sessionForRun 3) env500 w 3
      rfl hmiss (by decide)
    have he404 := download_image_httpfail image gi outDir (sessionForRun 3) env404 w 1 404
      none [] rfl hmiss (by decide) (by decide)
    have hpng : extFor ((some "image/png" : Option String).getD "") = ".png" := by decide
    refine ⟨⟨?_, ?_⟩, ⟨?_, ?_⟩, ⟨?_, ?_⟩⟩
    · rw [he502, hpng]
    · rw [he502]
      show (cacheHit image gi outDir w).2.requests + 3 = w.requests + 3
      rw [cacheHit_requests]
    · rw [he500]
    · rw [he500]
      show (cacheHit image gi outDir w).2.requests + 3 = w.requests + 3
      rw [cacheHit_requests]
    · rw [he404]
    · rw [he404]
      show (cacheHit image gi outDir w).2.requests + 1 = w.requests + 1
      rw [cacheHit_requests]

/-- Witness for C4: the three scenario conclusions at a concrete fresh task. -/
theorem fetch_retry_policy_witness :
    (cacheHit imgA giA "out" wEmpty).1 = false ∧
    (download_image imgA giA "out" (sessionForRun 3) env502 wEmpty).1
        = .ok (.downloaded (taskStem imgA giA "out" ++ ".png")) ∧
    (download_image imgA giA "out" (sessionForRun 3) env500 wEmpty).1
        = .ok (.failed (taskUrl imgA)) ∧
    (download_image imgA giA "out" (sessionForRun 3) env404 wEmpty).2.requests
        = wEmpty.requests + 1 :=
  ⟨by decide,
    ((fetch_retry_policy.2.2.2.2.2 imgA giA "out" wEmpty (by decide)).1).1,
    ((fetch_retry_policy.2.2.2.2.2 imgA giA "out" wEmpty (by decide)).2.1).1,
    ((fetch_retry_policy.2.2.2.2.2 imgA giA "out" wEmpty (by decide)).2.2).2⟩

theorem poolRun_drain (envOf : QTask → TaskEnv) (outDir : String) (session : Session) :
    ∀ (q : List QTask) (w : World) (c : Nat),
      (∀ t ∈ q, (envOf t).mkdirFails = false ∧ (envOf t).writeFails = false) →
      (poolRun envOf outDir session q.length ⟨q, w, c⟩).completed = c + q.length ∧
      (poolRun envOf outDir session q.length ⟨q, w, c⟩).queue = [] := by
  intro q
  induction q with
  | nil => intro w c _; exact ⟨rfl, rfl⟩
  | cons t rest ih =>
    intro w c hok
    obtain ⟨r, w', heq⟩ := download_image_ok t.1 t.2 outDir session (envOf t) w
      (hok t (List.mem_cons_self t rest)).1 (hok t (List.mem_cons_self t rest)).2
    have hstep : poolStep envOf outDir session ⟨t :: rest, w, c⟩
        = ⟨rest, w', c + 1⟩ := by
      unfold poolStep
      simp only [heq]
    have hrest : ∀ u ∈ rest, (envOf u).mkdirFails = false ∧ (envOf u).writeFails = false :=
      fun u hu => hok u (List.mem_cons_of_mem t hu)
    have := ih w' (c + 1) hrest
    have hpr : poolRun envOf outDir session ((t :: rest).length) ⟨t :: rest, w, c⟩
        = poolRun envOf outDir session rest.length ⟨rest, w', c + 1⟩ := by
      show poolRun envOf outDir session (rest.length + 1) ⟨t :: rest, w, c⟩
          = poolRun envOf outDir session rest.length ⟨rest, w', c + 1⟩
      rw [show poolRun envOf outDir session (rest.length + 1) ⟨t :: rest, w, c⟩
          = poolRun envOf outDir session rest.length
              (poolStep envOf outDir session ⟨t :: rest, w, c⟩) from rfl]
      rw [hstep]
    rw [hpr]
    refine ⟨?_, this.2⟩
    rw [this.1]
    show c + 1 + rest.length = c + (rest.length + 1)
    omega

/-- C1: each completed task execution bumps the completion counter by
exactly one, and a pool that drains the queue ends with the counter equal
to the number of enqueued tasks. -/
theorem completion_counter_accounting (envOf : QTask → TaskEnv) (outDir : String)
    (session : Session) (s : PoolState)
    (hok : ∀ t ∈ s.queue, (envOf t).mkdirFails = false ∧ (envOf t).writeFails = false) :
    (∀ t rest, s.queue = t :: rest →
       (poolStep envOf outDir session s).completed = s.completed + 1) ∧
    (poolRun envOf outDir session s.queue.length s).completed
        = s.completed + s.queue.length ∧
    (poolRun envOf outDir session s.queue.length s).queue = [] := by
  obtain ⟨q, w, c⟩ := s
  refine ⟨?_, poolRun_drain envOf outDir session q w c hok⟩
  intro t rest hq
  simp only at hq
  subst hq
  obtain ⟨r, w', heq⟩ := download_image_ok t.1 t.2 outDir session (envOf t) w
    (hok t (List.mem_cons_self t rest)).1 (hok t (List.mem_cons_self t rest)).2
  unfold poolStep
  simp only [heq]

/-- Witness for C1: a two-task queue drains with the counter at 2. -/
theorem completion_counter_accounting_witness :
    (∀ t ∈ [((imgA, giA) : QTask), (imgB, giA)],
       (envAllOk t).mkdirFails = false ∧ (envAllOk t).writeFails = false) ∧
    (poolRun envAllOk "out" (sessionForRun 3) ([((imgA, giA) : QTask), (imgB, giA)]).length
       ⟨[(imgA, giA), (imgB, giA)], wEmpty, 0⟩).completed = 0 + 2 ∧
    (poolRun envAllOk "out" (sessionForRun 3) ([((imgA, giA) : QTask), (imgB, giA)]).length
       ⟨[(imgA, giA), (imgB, giA)], wEmpty, 0⟩).queue = [] :=
  ⟨by decide,
    (completion_counter_accounting envAllOk "out" (sessionForRun 3)
      ⟨[(imgA, giA), (imgB, giA)], wEmpty, 0⟩ (by decide)).2.1,
    (completion_counter_accounting envAllOk "out" (sessionForRun 3)
      ⟨[(imgA, giA), (imgB, giA)], wEmpty, 0⟩ (by decide)).2.2⟩

/-! ### Claim theorems: failure propagation, idempotence, sanitization of segments -/

/-- C6 amended: only `RequestException`-level failures are contained —
a completed execution (no filesystem error) hands its result, failures
included, to the worker, which continues; an `OSError` from `os.makedirs`
or the file write escapes `download_image` and aborts the worker, leaving
its remaining tasks behind. -/
theorem task_failure_propagation (envOf : QTask → TaskEnv) (outDir : String)
    (session : Session) :
    (∀ (t : QTask) (rest : List QTask) (w : World) (c : Nat),
       (envOf t).mkdirFails = false → (envOf t).writeFails = false →
       ∃ r w', download_image t.1 t.2 outDir session (envOf t) w = (.ok r, w') ∧
         worker_task envOf outDir session (t :: rest) w c =
           (r :: (worker_task envOf outDir session rest w' (c + 1)).1,
            (worker_task envOf outDir session rest w' (c + 1)).2)) ∧
    (∀ (t : QTask) (rest : List QTask) (w w' : World) (c : Nat) (e : OSErr),
       download_image t.1 t.2 outDir session (envOf t) w = (.error e, w') →
       worker_task envOf outDir session (t :: rest) w c = ([], w', c, some e, rest)) := by
  constructor
  · intro t rest w c hm hw
    obtain ⟨r, w', heq⟩ := download_image_ok t.1 t.2 outDir session (envOf t) w hm hw
    refine ⟨r, w', heq, ?_⟩
    show (match download_image t.1 t.2 outDir session (envOf t) w with
          | (.ok r, w') =>
            (r :: (worker_task envOf outDir session rest w' (c + 1)).1,
             (worker_task envOf outDir session rest w' (c + 1)).2)
          | (.error e, w') => ([], w', c, some e, rest)) =
        (r :: (worker_task envOf outDir session rest w' (c + 1)).1,
         (worker_task envOf outDir session rest w' (c + 1)).2)
    rw [heq]
  · intro t rest w w' c e heq
    show (match download_image t.1 t.2 outDir session (envOf t) w with
          | (.ok r, w') =>
            (r :: (worker_task envOf outDir session rest w' (c + 1)).1,
             (worker_task envOf outDir session rest w' (c + 1)).2)
          | (.error e, w') => ([], w', c, some e, rest)) = ([], w', c, some e, rest)
    rw [heq]

/-- Witness for C6 (amended): a write failure surfaces as an escaped
exception that stops the worker before its remaining task. -/
theorem task_failure_propagation_witness :
    download_image imgA giA "out" (sessionForRun 3) (envAllWriteFail ((imgA, giA) : QTask))
        wEmpty = (.error .writeErr, wWriteFailed) ∧
    worker_task envAllWriteFail "out" (sessionForRun 3) [(imgA, giA), (imgB, giA)] wEmpty 0
        = ([], wWriteFailed, 0, some .writeErr, [(imgB, giA)]) :=
  ⟨by decide,
    (task_failure_propagation envAllWriteFail "out" (sessionForRun 3)).2
      (imgA, giA) [(imgB, giA)] wEmpty wWriteFailed 0 .writeErr (by decide)⟩

/-- Counterexample to C6 as stated: at this input the write failure is NOT
returned as a failure result — the worker ends with no result for the task,
an escaped `OSError`, an unincremented counter, and an unprocessed tail. -/
theorem fs_error_aborts_worker_counterexample :
    (worker_task envAllWriteFail "out" (sessionForRun 3) [(imgA, giA), (imgB, giA)]
        wEmpty 0).1 = [] ∧
    (worker_task envAllWriteFail "out" (sessionForRun 3) [(imgA, giA), (imgB, giA)]
        wEmpty 0).2.2.1 = 0 ∧
    (worker_task envAllWriteFail "out" (sessionForRun 3) [(imgA, giA), (imgB, giA)]
        wEmpty 0).2.2.2.1 = some .writeErr ∧
    (worker_task envAllWriteFail "out" (sessionForRun 3) [(imgA, giA), (imgB, giA)]
        wEmpty 0).2.2.2.2 = [(imgB, giA)] := by
  refine ⟨?_, ?_, ?_, ?_⟩ <;> decide

/-- C3 amended: with a fresh cache, a task whose extension-less stem is
absent from disk is never skipped — the session is hit again; and a
download writes `stem ++ ext` with a non-empty extension, never the bare
stem, so a first run's download leaves the second run's check failing. -/
theorem second_run_stem_check_fails (image : ImageElem) (gi : GameInfo) (outDir : String)
    (session : Session) (env : TaskEnv) (w : World)
    (hcache : w.cache = [])
    (hdisk : osPathExists (postMkdirWorld image gi outDir w) (taskStem image gi outDir)
        = false)
    (hm : env.mkdirFails = false) :
    (∀ p, (download_image image gi outDir session env w).1 ≠ .ok (.skipped p)) ∧
    (download_image image gi outDir session env w).2.requests
        = w.requests + (sessionGet session.status_forcelist session.total env.attempts).2 ∧
    (∀ ct : String, taskStem image gi outDir ++ extFor ct ≠ taskStem image gi outDir) := by
  have hmiss : (cacheHit image gi outDir w).1 = false := by
    unfold cacheHit file_exists
    have hc : (postMkdirWorld image gi outDir w).cache = [] := hcache
    rw [hc]
    simp [lookupCache, hdisk]
  have hext : ∀ ct : String, taskStem image gi outDir ++ extFor ct ≠ taskStem image gi outDir := by
    intro ct h
    have h4 : (extFor ct).length = 4 := by
      unfold extFor
      split
      · decide
      · split
        · decide
        · decide
    have := congrArg String.length h
    rw [String.length_append, h4] at this
    omega
  refine ⟨?_, ?_, hext⟩
  · intro p
    rcases hE : sessionGet session.status_forcelist session.total env.attempts with ⟨res, n⟩
    cases res with
    | exhausted =>
      rw [download_image_exhausted image gi outDir session env w n hm hmiss hE]
      simp
    | resp status ct body =>
      by_cases hs : 400 ≤ status
      · rw [download_image_httpfail image gi outDir session env w n status ct body hm hmiss hE hs]
        simp
      · by_cases hwf : env.writeFails = true
        · rw [download_image_writefail image gi outDir session env w n status ct body
            hm hwf hmiss hE hs]
          simp
        · rw [download_image_success image gi outDir session env w n status ct body
            hm (by simpa using hwf) hmiss hE hs]
          simp
  · rcases hE : sessionGet session.status_forcelist session.total env.attempts with ⟨res, n⟩
    have hreq : (cacheHit image gi outDir w).2.requests = w.requests :=
      cacheHit_requests image gi outDir w
    cases res with
    | exhausted =>
      rw [download_image_exhausted image gi outDir session env w n hm hmiss hE]
      show (cacheHit image gi outDir w).2.requests + n = w.requests + n
      rw [hreq]
    | resp status ct body =>
      by_cases hs : 400 ≤ status
      · rw [download_image_httpfail image gi outDir session env w n status ct body hm hmiss hE hs]
        show (cacheHit image gi outDir w).2.requests + n = w.requests + n
        rw [hreq]
      · by_cases hwf : env.writeFails = true
        · rw [download_image_writefail image gi outDir session env w n status ct body
            hm hwf hmiss hE hs]
          show (cacheHit image gi outDir w).2.requests + n = w.requests + n
          rw [hreq]
        · rw [download_image_success image gi outDir session env w n status ct body
            hm (by simpa using hwf) hmiss hE hs]
          show (cacheHit image gi outDir w).2.requests + n = w.requests + n
          rw [hreq]

/-- Witness for C3 (amended) at the world the first run leaves behind. -/
theorem second_run_stem_check_fails_witness :
    ({ wAfterFirstRun with cache := [] } : World).cache = [] ∧
    osPathExists (postMkdirWorld imgA giA "out" { wAfterFirstRun with cache := [] })
        (taskStem imgA giA "out") = false ∧
    envOk200.mkdirFails = false ∧
    (download_image imgA giA "out" (sessionForRun 3) envOk200
        { wAfterFirstRun with cache := [] }).1 ≠ .ok (.skipped (taskStem imgA giA "out")) :=
  ⟨rfl, by decide, rfl,
    (second_run_stem_check_fails imgA giA "out" (sessionForRun 3) envOk200
        { wAfterFirstRun with cache := [] } rfl (by decide) rfl).1 (taskStem imgA giA "out")⟩

/-- Counterexample to C3 as stated: the same task, run twice against the
same catalog and output directory with an unchanged remote source, is
downloaded again on the second run (and hits the network again) instead of
resolving to skipped. -/
theorem second_run_downloads_again_counterexample :
    (download_image imgA giA "out" (sessionForRun 3) envOk200 wEmpty).1
        = .ok (.downloaded "out/P/N/r/t.jpg") ∧
    (download_image imgA giA "out" (sessionForRun 3) envOk200
        { wAfterFirstRun with cache := [] }).1 = .ok (.downloaded "out/P/N/r/t.jpg") ∧
    (download_image imgA giA "out" (sessionForRun 3) envOk200
        { wAfterFirstRun with cache := [] }).2.requests = 2 := by
  refine ⟨?_, ?_, ?_⟩ <;> decide

/-- Counterexample to C7 as stated: a task built for a game whose platform
label contains `/` keeps that label verbatim — the category segment is not
sanitized before it is used to build the destination path. -/
theorem unsanitized_platform_counterexample :
    build_queue [imgA] [gSlash] = [(imgA, ⟨"A/B", "N"⟩)] ∧
    sanitize_filename (some "A/B") = "A_B" ∧
    ("A/B" : String) ≠ "A_B" ∧
    taskFolderSegs imgA ⟨"A/B", "N"⟩ "out" = ["out", "A/B", "N", "r"] := by
  refine ⟨?_, ?_, ?_, ?_⟩ <;> decide

/-- C7 amended: of the four path segments, the entity name is sanitized at
queue construction and the region and type are sanitized inside
`download_image` via `safe_find_text`; the category (platform) segment is
used exactly as provided by the selected game, unsanitized. -/
theorem queue_segment_sanitization (gameImages : List ImageElem) (games : List Game) :
    (∀ p ∈ build_queue gameImages games,
       (∃ g ∈ games, p.2.platform = g.platform ∧ p.2.name = sanitize_filename (some g.name)) ∧
       sanitize_filename (some p.2.name) = p.2.name) ∧
    (∀ (f : Option (Option String)) (d : String),
       sanitize_filename (some (safe_find_text f d)) = safe_find_text f d) ∧
    (∀ (image : ImageElem) (gi : GameInfo) (outDir : String),
       taskFolderSegs image gi outDir
         = [outDir, gi.platform, gi.name, safe_find_text image.region "Unknown"] ∧
       taskStem image gi outDir
         = pathJoin [pathJoin (taskFolderSegs image gi outDir),
             safe_find_text image.imageType "Unknown"]) := by
  refine ⟨?_, ?_, fun image gi outDir => ⟨rfl, rfl⟩⟩
  · intro p hp
    unfold build_queue at hp
    rw [List.mem_flatMap] at hp
    obtain ⟨g, hg, hpin⟩ := hp
    rw [List.mem_map] at hpin
    obtain ⟨image, himg, hpe⟩ := hpin
    subst hpe
    exact ⟨⟨g, hg, rfl, rfl⟩, sanitize_fixpoint (some g.name)⟩
  · intro f d
    cases f with
    | none => exact sanitize_fixpoint (some d)
    | some t => exact sanitize_fixpoint t

/-- Witness for C7 (amended) on a one-game queue. -/
theorem queue_segment_sanitization_witness :
    (((imgA, ⟨"P", "N"⟩) : QTask) ∈ build_queue [imgA] [gP]) ∧
    ((∃ g ∈ [gP], (⟨"P", "N"⟩ : GameInfo).platform = g.platform ∧
        (⟨"P", "N"⟩ : GameInfo).name = sanitize_filename (some g.name)) ∧
     sanitize_filename (some (⟨"P", "N"⟩ : GameInfo).name) = (⟨"P", "N"⟩ : GameInfo).name) :=
  ⟨by decide,
    (queue_segment_sanitization [imgA] [gP]).1 (imgA, ⟨"P", "N"⟩) (by decide)⟩

end Scraper
